import Mathlib

/-
Shallow embedding of the stream-wars real-time state synchronization engine.

Source files embedded:
  - src/lib/redis.ts        : authoritative state store access layer
                              (getUser, addUser, removeUser, incrementUserTaps,
                               balanceTeamAssignment, calculateTapMetrics,
                               trackVisit, incrementActiveSessions,
                               decrementActiveSessions, calculateConsistencyScore,
                               getGameState, resetGameState)
  - src/lib/websocket.ts    : StandaloneWebSocketServer.handleUserJoin and
                              handleUserLeave (connection gateway / orchestrator)
  - kafka consumer module   : processTapEvent (event-log consumer that
                              auto-creates an absent player from a tap event)

Modelling conventions:
  - The Redis hashes game:users (active view) and game:all_users (all-time
    view) are association lists keyed by user id; hset replaces the first
    binding of the key or appends, hget returns the first binding, hdel
    removes the key.  Reachable states never hold duplicate keys.
  - JavaScript Date.now() timestamps are integers, threaded as explicit
    parameters.  Math.random() < 0.5 is threaded as an explicit Bool coin.
  - JavaScript truthiness of optional numeric fields: undefined and 0 are
    both falsy; optional fields are Option values and the truthiness tests
    of the source are translated field by field.
  - Rational arithmetic replaces JS float arithmetic in calculateTapMetrics;
    division by a zero denominator yields 0 under the Lean convention
    (the source would produce Infinity there; no claim exercises that path).
  - The user meta object (browser/OS/ip strings), the session TTL records of
    session keys, and the fire-and-forget async geolocation callback carry
    no game logic and are outside the modeled key space.
-/

namespace StreamWars

/-- Team type from src/lib/types.ts. -/
inductive Team where
  | blue
  | red
deriving DecidableEq

/-- The opposing team. -/
def Team.other : Team → Team
  | Team.blue => Team.red
  | Team.red => Team.blue

/-- User record from src/lib/types.ts.  Time-valued fields are Int epoch
milliseconds; optional fields of the TS interface are Option. -/
structure User where
  id : String
  username : String
  team : Team
  sessionId : String
  tapCount : Nat
  lastTapTime : Int
  sessionStartTime : Option Int := none
  lastDisconnectTime : Option Int := none
  reconnectCount : Option Nat := none
  firstTapTime : Option Int := none
  previousTapCount : Option Nat := none
  activeSessions : Option Nat := none
  lastVisitTime : Option Int := none
  visitCount : Option Nat := none
  streakLength : Option Nat := none
deriving DecidableEq

/-- Tap event from src/lib/types.ts, restricted to the fields the consumer
reads.  The team is Option because the consumer guards it with a JS
truthiness test before falling back to the balancer. -/
structure TapEvent where
  id : String
  userId : String
  username : String
  team : Option Team
  timestamp : Int
  sessionId : String
deriving DecidableEq

/-- Game state snapshot from src/lib/types.ts. -/
structure GameState where
  blueScore : Nat
  redScore : Nat
  totalTaps : Nat
  activeUsers : Nat
  lastUpdated : Int
deriving DecidableEq

/-- Association-list read: first binding of the key (Redis hget). -/
def hget {α : Type} : List (String × α) → String → Option α
  | [], _ => none
  | (k', v) :: rest, k => if k' = k then some v else hget rest k

/-- Association-list write: replace the first binding of the key, or append
a fresh binding (Redis hset). -/
def hset {α : Type} : List (String × α) → String → α → List (String × α)
  | [], k, v => [(k, v)]
  | (k', v') :: rest, k, v =>
      if k' = k then (k, v) :: rest else (k', v') :: hset rest k v

/-- Association-list delete: drop every binding of the key (Redis hdel). -/
def hdel {α : Type} : List (String × α) → String → List (String × α)
  | [], _ => []
  | (k', v') :: rest, k =>
      if k' = k then hdel rest k else (k', v') :: hdel rest k

/-- The authoritative state store: the Redis key space touched by the core
(active hash game:users, persistent hash game:all_users, and the three
atomic counters). -/
structure RedisState where
  users : List (String × User)
  allUsers : List (String × User)
  blueScore : Nat
  redScore : Nat
  totalTaps : Nat
deriving DecidableEq

/-- State after resetGameState in src/lib/redis.ts: every key deleted. -/
def resetState : RedisState :=
  { users := [], allUsers := [], blueScore := 0, redScore := 0, totalTaps := 0 }

/-- The double hset every record-mutating store function performs: write
the record under the key in both the active and the all-time hash. -/
def setBoth (s : RedisState) (k : String) (v : User) : RedisState :=
  { s with
      users := hset s.users k v
      allUsers := hset s.allUsers k v }

/-- The atomic counter pair of incrementUserTaps: incr on the score key
selected by the team of the record, and incr on the total-tap key. -/
def bumpTeamScore (s : RedisState) (t : Team) : RedisState :=
  match t with
  | Team.blue => { s with blueScore := s.blueScore + 1, totalTaps := s.totalTaps + 1 }
  | Team.red => { s with redScore := s.redScore + 1, totalTaps := s.totalTaps + 1 }

/-- getUser from src/lib/redis.ts: check the active hash first, then fall
back to the persistent all-time hash. -/
def getUser (s : RedisState) (userId : String) : Option User :=
  match hget s.users userId with
  | some u => some u
  | none => hget s.allUsers userId

/-- addUser from src/lib/redis.ts: write the record to both the active hash
and the persistent hash, keyed by the id stored in the record. -/
def addUser (s : RedisState) (user : User) : RedisState :=
  setBoth s user.id user

/-- removeUser from src/lib/redis.ts: delete from the active hash only. -/
def removeUser (s : RedisState) (userId : String) : RedisState :=
  { s with users := hdel s.users userId }

/-- getGameState from src/lib/redis.ts: read the three counters and the size
of the active hash; lastUpdated is Date.now(). -/
def getGameState (s : RedisState) (now : Int) : GameState :=
  { blueScore := s.blueScore
    redScore := s.redScore
    totalTaps := s.totalTaps
    activeUsers := s.users.length
    lastUpdated := now }

/-- The record mutation of incrementUserTaps: bump tapCount by one and stamp
lastTapTime with Date.now(). -/
def tappedUser (u : User) (now : Int) : User :=
  { u with tapCount := u.tapCount + 1, lastTapTime := now }

/-- The score counter selected by a team. -/
def teamScore (s : RedisState) (t : Team) : Nat :=
  match t with
  | Team.blue => s.blueScore
  | Team.red => s.redScore

/-- incrementUserTaps from src/lib/redis.ts.  Looks the player up through
getUser; absent players are a no-op returning null.  Otherwise bumps
tapCount, stamps lastTapTime, rewrites the record in both hashes, and
atomically increments the team counter of the team stored on the record and
the total-tap counter. -/
def incrementUserTaps (s : RedisState) (userId : String) (now : Int) :
    Option User × RedisState :=
  match getUser s userId with
  | none => (none, s)
  | some u =>
      let user : User := tappedUser u now
      (some user, bumpTeamScore (setBoth s userId user) user.team)

/-- Count of active users on team blue, as accumulated by the forEach loop
of balanceTeamAssignment. -/
def blueCountOf (s : RedisState) : Nat :=
  ((s.users.map Prod.snd).filter (fun u => u.team = Team.blue)).length

/-- Count of active users not on team blue (the else branch of the forEach
loop of balanceTeamAssignment). -/
def redCountOf (s : RedisState) : Nat :=
  ((s.users.map Prod.snd).filter (fun u => ¬(u.team = Team.blue))).length

/-- balanceTeamAssignment from src/lib/redis.ts: count active players per
team over getAllUsers (the active hash); equal counts are broken by the
random coin (Math.random() < 0.5 picks blue), otherwise the team with
fewer members wins deterministically. -/
def balanceTeamAssignment (s : RedisState) (coin : Bool) : Team :=
  let blueCount := blueCountOf s
  let redCount := redCountOf s
  if blueCount = redCount then (if coin then Team.blue else Team.red)
  else if blueCount < redCount then Team.blue
  else Team.red

/-- JS truthiness of an optional numeric field: undefined and 0 are falsy. -/
def jsTruthyInt : Option Int → Option Int
  | some t => if t = 0 then none else some t
  | none => none

/-- JS truthiness of an optional counter field: undefined and 0 are falsy. -/
def jsTruthyNat : Option Nat → Option Nat
  | some n => if n = 0 then none else some n
  | none => none

/-- JS truthiness of an optional string field: undefined and the empty
string are falsy. -/
def strTruthy : Option String → Option String
  | some str => if str = ("") then none else some str
  | none => none

/-- The visit info object returned by trackVisit. -/
structure VisitInfo where
  visitCount : Nat
  isReturnVisit : Bool
  lastVisitTime : Option Int
deriving DecidableEq

/-- The streak update of trackVisit: daysDiff is Math.floor of the raw
millisecond gap divided by one day; bucket 0 keeps the stored streak (a
zero streak becomes 1 through the JS or-default), bucket 1 increments it,
anything else resets to 1; with no truthy prior visit time the streak is
set to 1. -/
def visitStreak (user : User) (visitTime : Int) : Nat :=
  match jsTruthyInt user.lastVisitTime with
  | some lv =>
      let daysDiff := Int.fdiv (visitTime - lv) 86400000
      if daysDiff = 0 then
        (if user.streakLength.getD 0 = 0 then 1 else user.streakLength.getD 0)
      else if daysDiff = 1 then user.streakLength.getD 0 + 1
      else 1
  | none => 1

/-- trackVisit from src/lib/redis.ts: on a stored player, bump the visit
count, stamp the visit time and store the updated streak; absent players
get the default info object and no write. -/
def trackVisit (s : RedisState) (userId : String) (visitTime : Int) :
    RedisState × VisitInfo :=
  match getUser s userId with
  | none => (s, { visitCount := 1, isReturnVisit := false, lastVisitTime := none })
  | some user =>
      let lastVisitTime := jsTruthyInt user.lastVisitTime
      let isReturnVisit := lastVisitTime.isSome
      let visitCount := user.visitCount.getD 0 + 1
      let user' : User :=
        { user with
            visitCount := some visitCount
            lastVisitTime := some visitTime
            streakLength := some (visitStreak user visitTime) }
      (setBoth s userId user',
       { visitCount := visitCount, isReturnVisit := isReturnVisit,
         lastVisitTime := lastVisitTime })

/-- incrementActiveSessions from src/lib/redis.ts: bump the multi-tab
counter on the stored record; absent players return 0 with no write. -/
def incrementActiveSessions (s : RedisState) (userId : String) :
    RedisState × Nat :=
  match getUser s userId with
  | none => (s, 0)
  | some user =>
      let n := user.activeSessions.getD 0 + 1
      let user' : User := { user with activeSessions := some n }
      (setBoth s userId user', n)

/-- decrementActiveSessions from src/lib/redis.ts: only acts when the
stored counter is truthy; Math.max(0, n - 1) is exact Nat subtraction
because n is at least 1 in that branch. -/
def decrementActiveSessions (s : RedisState) (userId : String) :
    RedisState × Nat :=
  match getUser s userId with
  | none => (s, 0)
  | some user =>
      match jsTruthyNat user.activeSessions with
      | none => (s, 0)
      | some n =>
          let user' : User := { user with activeSessions := some (n - 1) }
          (setBoth s userId user', n - 1)

/-- incrementReconnectCount from src/lib/redis.ts. -/
def incrementReconnectCount (s : RedisState) (userId : String) :
    RedisState × Nat :=
  match getUser s userId with
  | none => (s, 0)
  | some user =>
      let n := user.reconnectCount.getD 0 + 1
      let user' : User := { user with reconnectCount := some n }
      (setBoth s userId user', n)

/-- updateUserDisconnectTime from src/lib/redis.ts. -/
def updateUserDisconnectTime (s : RedisState) (userId : String)
    (disconnectTime : Int) : RedisState :=
  match getUser s userId with
  | none => s
  | some user =>
      let user' : User := { user with lastDisconnectTime := some disconnectTime }
      setBoth s userId user'

/-- The team the consumer picks for a player it creates from a tap event:
the team of the event when truthy, otherwise the balancer. -/
def eventTeam (s : RedisState) (e : TapEvent) (coin : Bool) : Team :=
  match e.team with
  | some t => t
  | none => balanceTeamAssignment s coin

/-- The record the consumer creates for an unknown player: fields copied
from the tap event, tap count 0, lastTapTime Date.now(). -/
def userFromTapEvent (e : TapEvent) (team : Team) (now : Int) : User :=
  { id := e.userId, username := e.username, team := team,
    sessionId := e.sessionId, tapCount := 0, lastTapTime := now }

/-- processTapEvent of the event-log consumer: look the player up; when
absent, create the record first (team from the event when truthy,
otherwise the balancer; tapCount 0), then apply incrementUserTaps. -/
def processTapEvent (s : RedisState) (e : TapEvent) (coin : Bool) (now : Int) :
    Option User × RedisState :=
  let s1 : RedisState :=
    match getUser s e.userId with
    | some _ => s
    | none => addUser s (userFromTapEvent e (eventTeam s e coin) now)
  incrementUserTaps s1 e.userId now

/-- The data object of an inbound user_join socket message. -/
structure JoinData where
  id : Option String
  username : Option String
  team : Option Team
  sessionId : Option String
deriving DecidableEq

/-- The existingUser lookup of handleUserJoin: only performed when the
client-sent id is truthy. -/
def joinExistingUser (s : RedisState) (userData : JoinData) : Option User :=
  match strTruthy userData.id with
  | some uid => getUser s uid
  | none => none

/-- The finalTeam priority chain of handleUserJoin: stored team of an
existing record, then the client-declared team, then the balancer. -/
def joinFinalTeam (s : RedisState) (userData : JoinData) (coin : Bool) : Team :=
  match joinExistingUser s userData with
  | some u => u.team
  | none =>
      match userData.team with
      | some t => t
      | none => balanceTeamAssignment s coin

/-- The isComeback flag of handleUserJoin: an existing record with a truthy
lastDisconnectTime. -/
def joinIsComeback (s : RedisState) (userData : JoinData) : Bool :=
  match joinExistingUser s userData with
  | some u => (jsTruthyInt u.lastDisconnectTime).isSome
  | none => false

/-- The id the join binds the record to: the truthy client-sent id, or the
connection id. -/
def joinEffectiveId (clientId : String) (userData : JoinData) : String :=
  (strTruthy userData.id).getD clientId

/-- The reconnect-count handling of handleUserJoin: bump the stored counter
on a comeback, otherwise reuse the stored value. -/
def joinReconnect (s : RedisState) (clientId : String) (userData : JoinData) :
    RedisState × Nat :=
  if joinIsComeback s userData then
    incrementReconnectCount s (joinEffectiveId clientId userData)
  else (s, match joinExistingUser s userData with
           | some u => u.reconnectCount.getD 0
           | none => 0)

/-- The record handleUserJoin builds and persists: server-side tap count,
the finalTeam priority chain, and no activeSessions, visitCount,
lastVisitTime or streakLength fields. -/
def joinUser (s : RedisState) (clientId : String) (userData : JoinData)
    (coin : Bool) (now : Int) : User :=
  { id := joinEffectiveId clientId userData
    username := (strTruthy userData.username).getD ("Anonymous")
    team := joinFinalTeam s userData coin
    sessionId := userData.sessionId.getD ("")
    tapCount :=
      match joinExistingUser s userData with
      | some u => u.tapCount
      | none => 0
    lastTapTime :=
      match joinExistingUser s userData with
      | some u => if u.lastTapTime = 0 then now else u.lastTapTime
      | none => now
    sessionStartTime := some now
    reconnectCount := some (joinReconnect s clientId userData).2 }

/-- handleUserJoin of StandaloneWebSocketServer (src/lib/websocket.ts),
restricted to its state-store effect, in source order: the conditional
reconnect-count bump, trackVisit, incrementActiveSessions, then the final
addUser overwrite with the built record.  The session-key write of
trackSessionStart and the fire-and-forget geolocation callback touch no
modeled key.  Returns the new state and the record that was persisted. -/
def handleUserJoin (s : RedisState) (clientId : String) (userData : JoinData)
    (coin : Bool) (now : Int) : RedisState × User :=
  let user := joinUser s clientId userData coin now
  let s1 := (joinReconnect s clientId userData).1
  let s2 := (trackVisit s1 user.id now).1
  let s3 := (incrementActiveSessions s2 user.id).1
  (addUser s3 user, user)

/-- The session event kinds of src/lib/types.ts. -/
inductive SessionEventType where
  | session_start
  | session_end
  | comeback
  | rage_quit
  | marathon
deriving DecidableEq

/-- The kind of the session-end event handleUserLeave publishes, computed
from the record fetched at the start of the handler, the game state
snapshot, and the disconnect time: rage quit when the team of the player
trails, the last tap is less than 5000 ms old, and the player has tapped;
else marathon when the session duration is truthy and beyond 30 minutes;
else a plain session end. -/
def sessionEndEvent (user : User) (gameState : GameState)
    (disconnectTime : Int) : SessionEventType :=
  let sessionDuration : Option Int :=
    match user.sessionStartTime with
    | some st => some (disconnectTime - st)
    | none => none
  let userTeamScore : Nat :=
    match user.team with
    | Team.blue => gameState.blueScore
    | Team.red => gameState.redScore
  let opponentScore : Nat :=
    match user.team with
    | Team.blue => gameState.redScore
    | Team.red => gameState.blueScore
  let wasLosing : Bool := decide (userTeamScore < opponentScore)
  let timeSinceLastTap : Int := disconnectTime - user.lastTapTime
  let isRageQuit : Bool :=
    wasLosing && decide (timeSinceLastTap < 5000) && decide (user.tapCount > 0)
  let isMarathon : Bool :=
    match sessionDuration with
    | some d => decide (¬ d = 0) && decide (d > 30 * 60 * 1000)
    | none => false
  if isRageQuit then SessionEventType.rage_quit
  else if isMarathon then SessionEventType.marathon
  else SessionEventType.session_end

/-- handleUserLeave of StandaloneWebSocketServer (src/lib/websocket.ts),
restricted to its state-store effect and the kind of the session-end event
it publishes for a player that is still stored.  The game state used for
the rage-quit check is fetched after the decrement and disconnect-time
writes, which leave the score counters untouched. -/
def handleUserLeave (s : RedisState) (userId : String) (disconnectTime : Int) :
    RedisState × Option SessionEventType :=
  match getUser s userId with
  | none => (removeUser s userId, none)
  | some user =>
      let s1 := (decrementActiveSessions s userId).1
      let s2 := updateUserDisconnectTime s1 userId disconnectTime
      (removeUser s2 userId,
        some (sessionEndEvent user (getGameState s2 disconnectTime)
          disconnectTime))

/-- Math.round over the rationals: half rounds toward positive infinity. -/
def jsRound (q : ℚ) : ℤ := ⌊q + 1 / 2⌋

/-- Result object of calculateTapMetrics. -/
structure TapMetrics where
  tapVelocity : ℚ
  timeSinceLastTap : ℤ
  burstCount : ℕ
  maxBurst : ℕ
  isFrenzyMode : Bool
deriving DecidableEq

/-- calculateTapMetrics from src/lib/redis.ts over the newest-first tap
timestamp history.  The velocity is recent-tap count divided by the
seconds spanned back to the oldest recent tap, rounded to one decimal;
the frenzy check reads the unrounded velocity. -/
def calculateTapMetrics (tapTimestamps : List ℤ) (currentTimestamp : ℤ) :
    TapMetrics :=
  match tapTimestamps with
  | [] =>
      { tapVelocity := 0, timeSinceLastTap := 0, burstCount := 0,
        maxBurst := 0, isFrenzyMode := false }
  | t0 :: _ =>
      let timeSinceLastTap := currentTimestamp - t0
      let oneSecondAgo := currentTimestamp - 1000
      let burstCount := (tapTimestamps.filter (fun ts => ts ≥ oneSecondAgo)).length
      let threeSecondsAgo := currentTimestamp - 3000
      let recentTaps := tapTimestamps.filter (fun ts => ts ≥ threeSecondsAgo)
      let tapVelocity : ℚ :=
        match recentTaps.getLast? with
        | some last =>
            (recentTaps.length : ℚ) / (((currentTimestamp - last : ℤ) : ℚ) / 1000)
        | none => 0
      let maxBurst := tapTimestamps.foldl
        (fun m t =>
          max m ((tapTimestamps.filter (fun ts => ts ≥ t - 1000 ∧ ts ≤ t)).length))
        0
      let isFrenzyMode : Bool :=
        decide (tapVelocity > 5) && decide (recentTaps.length ≥ 15)
      { tapVelocity := (jsRound (tapVelocity * 10) : ℚ) / 10
        timeSinceLastTap := timeSinceLastTap
        burstCount := burstCount
        maxBurst := maxBurst
        isFrenzyMode := isFrenzyMode }

/-- Math.round over the reals: half rounds toward positive infinity. -/
noncomputable def jsRoundR (x : ℝ) : ℤ := ⌊x + 1 / 2⌋

/-- The inter-tap interval list of calculateConsistencyScore: the newest
first history yields intervals ts(i-1) - ts(i). -/
def tapIntervals (tapTimestamps : List ℤ) : List ℤ :=
  List.zipWith (fun a b => a - b) tapTimestamps tapTimestamps.tail

/-- calculateConsistencyScore from src/lib/redis.ts: a fixed 50 below five
history entries, otherwise 100 minus 100 times the coefficient of
variation of the inter-tap intervals, clamped to 0..100 and rounded.
Real-valued because the source takes a square root. -/
noncomputable def calculateConsistencyScore (tapTimestamps : List ℤ) : ℤ :=
  if tapTimestamps.length < 5 then 50
  else
    let intervals := tapIntervals tapTimestamps
    if intervals.length = 0 then 50
    else
      let mean : ℝ := ((intervals.map (fun i => (i : ℝ))).sum) / intervals.length
      let variance : ℝ :=
        ((intervals.map (fun i => ((i : ℝ) - mean) ^ 2)).sum) / intervals.length
      let cv : ℝ := if mean > 0 then Real.sqrt variance / mean else 1
      let score : ℝ := max 0 (min 100 (100 - cv * 100))
      jsRoundR score

/-! Association-list lemmas for the two Redis hashes. -/

theorem hget_hset_self {α : Type} (h : List (String × α)) (k : String) (v : α) :
    hget (hset h k v) k = some v := by
  induction h with
  | nil => simp [hset, hget]
  | cons p rest ih =>
      by_cases hk : p.1 = k
      · simp [hset, hget, hk]
      · simp [hset, hget, hk, ih]

theorem hget_hset_ne {α : Type} (h : List (String × α)) (k k' : String) (v : α)
    (hne : k' ≠ k) : hget (hset h k v) k' = hget h k' := by
  have hkk : ¬ k = k' := fun hEq => hne hEq.symm
  induction h with
  | nil => simp [hset, hget, hkk]
  | cons p rest ih =>
      by_cases hk : p.1 = k
      · simp [hset, hget, hk, hkk]
      · by_cases hk2 : p.1 = k' <;> simp [hset, hget, hk, hk2, hne, ih]

theorem hget_hdel_self {α : Type} (h : List (String × α)) (k : String) :
    hget (hdel h k) k = none := by
  induction h with
  | nil => rfl
  | cons p rest ih =>
      by_cases hk : p.1 = k
      · simp [hdel, hk, ih]
      · simp [hdel, hget, hk, ih]

theorem hget_hdel_ne {α : Type} (h : List (String × α)) (k k' : String)
    (hne : k' ≠ k) : hget (hdel h k) k' = hget h k' := by
  have hkk : ¬ k = k' := fun hEq => hne hEq.symm
  induction h with
  | nil => rfl
  | cons p rest ih =>
      by_cases hk : p.1 = k
      · simp [hdel, hget, hk, hkk, ih]
      · by_cases hk2 : p.1 = k' <;> simp [hdel, hget, hk, hk2, hne, ih]

/-- The contribution of one record to the tap sum of team t. -/
def contrib (t : Team) (u : User) : Nat :=
  if u.team = t then u.tapCount else 0

/-- Sum of tapCount over all records of a hash assigned to team t. -/
def teamTapSum (h : List (String × User)) (t : Team) : Nat :=
  (h.map (fun p => contrib t p.2)).sum

theorem teamTapSum_hset_found (h : List (String × User)) (k : String)
    (u v : User) (t : Team) (hf : hget h k = some u) :
    teamTapSum (hset h k v) t + contrib t u = teamTapSum h t + contrib t v := by
  induction h with
  | nil => simp [hget] at hf
  | cons p rest ih =>
      by_cases hk : p.1 = k
      · simp only [hget, hk, if_pos rfl] at hf
        cases hf
        simp only [hset, if_pos hk, teamTapSum, List.map_cons, List.sum_cons]
        omega
      · simp only [hget, if_neg hk] at hf
        have := ih hf
        simp only [hset, if_neg hk, teamTapSum, List.map_cons, List.sum_cons] at this ⊢
        omega

theorem teamTapSum_hset_none (h : List (String × User)) (k : String)
    (v : User) (t : Team) (hf : hget h k = none) :
    teamTapSum (hset h k v) t = teamTapSum h t + contrib t v := by
  induction h with
  | nil => simp [hset, teamTapSum]
  | cons p rest ih =>
      by_cases hk : p.1 = k
      · simp [hget, hk] at hf
      · simp only [hget, if_neg hk] at hf
        have := ih hf
        simp only [hset, if_neg hk, teamTapSum, List.map_cons, List.sum_cons] at this ⊢
        omega

/-- Invariant: the active view never disagrees with the all-time view about
a record it holds. -/
def viewsAgree (s : RedisState) : Prop :=
  ∀ k u, hget s.users k = some u → hget s.allUsers k = some u

/-- Invariant: each team score counter equals the tap sum of that team over
the all-time view. -/
def scoreInv (s : RedisState) : Prop :=
  s.blueScore = teamTapSum s.allUsers Team.blue ∧
  s.redScore = teamTapSum s.allUsers Team.red

theorem getUser_allUsers (s : RedisState) (k : String) (u : User)
    (hag : viewsAgree s) (hg : getUser s k = some u) :
    hget s.allUsers k = some u := by
  unfold getUser at hg
  cases hu : hget s.users k with
  | some w =>
      rw [hu] at hg
      cases hg
      exact hag k u hu
  | none =>
      rw [hu] at hg
      exact hg

theorem setBoth_users (s : RedisState) (k : String) (v : User) :
    (setBoth s k v).users = hset s.users k v := rfl

theorem setBoth_allUsers (s : RedisState) (k : String) (v : User) :
    (setBoth s k v).allUsers = hset s.allUsers k v := rfl

theorem bumpTeamScore_users (s : RedisState) (t : Team) :
    (bumpTeamScore s t).users = s.users := by cases t <;> rfl

theorem bumpTeamScore_allUsers (s : RedisState) (t : Team) :
    (bumpTeamScore s t).allUsers = s.allUsers := by cases t <;> rfl

theorem viewsAgree_setBoth (s : RedisState) (k : String) (v : User)
    (hag : viewsAgree s) : viewsAgree (setBoth s k v) := by
  intro k' u' hg
  rw [setBoth_users] at hg
  rw [setBoth_allUsers]
  by_cases hk : k' = k
  · subst hk
    rw [hget_hset_self] at hg
    rw [hget_hset_self]
    exact hg
  · rw [hget_hset_ne _ _ _ _ hk] at hg
    rw [hget_hset_ne _ _ _ _ hk]
    exact hag k' u' hg

theorem viewsAgree_bumpTeamScore (s : RedisState) (t : Team)
    (hag : viewsAgree s) : viewsAgree (bumpTeamScore s t) := by
  intro k u hg
  rw [bumpTeamScore_users] at hg
  rw [bumpTeamScore_allUsers]
  exact hag k u hg

/-- Applying the tap write (double hset of the bumped record, then the two
atomic counter increments) preserves both invariants. -/
theorem inv_tapWrite (s : RedisState) (uid : String) (u v : User)
    (hall : hget s.allUsers uid = some u)
    (hteam : v.team = u.team) (htap : v.tapCount = u.tapCount + 1)
    (hag : viewsAgree s) (hsc : scoreInv s) :
    viewsAgree (bumpTeamScore (setBoth s uid v) v.team) ∧
      scoreInv (bumpTeamScore (setBoth s uid v) v.team) := by
  refine ⟨viewsAgree_bumpTeamScore _ _ (viewsAgree_setBoth s uid v hag), ?_⟩
  have hsumB := teamTapSum_hset_found s.allUsers uid u v Team.blue hall
  have hsumR := teamTapSum_hset_found s.allUsers uid u v Team.red hall
  have hb := hsc.1
  have hr := hsc.2
  cases ht : u.team with
  | blue =>
      have h1 : contrib Team.blue u = u.tapCount := by simp [contrib, ht]
      have h2 : contrib Team.red u = 0 := by simp [contrib, ht]
      have h3 : contrib Team.blue v = u.tapCount + 1 := by
        simp [contrib, hteam, ht, htap]
      have h4 : contrib Team.red v = 0 := by simp [contrib, hteam, ht]
      rw [h1, h3] at hsumB
      rw [h2, h4] at hsumR
      rw [hteam, ht]
      constructor
      · show s.blueScore + 1 = teamTapSum (hset s.allUsers uid v) Team.blue
        omega
      · show s.redScore = teamTapSum (hset s.allUsers uid v) Team.red
        omega
  | red =>
      have h1 : contrib Team.red u = u.tapCount := by simp [contrib, ht]
      have h2 : contrib Team.blue u = 0 := by simp [contrib, ht]
      have h3 : contrib Team.red v = u.tapCount + 1 := by
        simp [contrib, hteam, ht, htap]
      have h4 : contrib Team.blue v = 0 := by simp [contrib, hteam, ht]
      rw [h1, h3] at hsumR
      rw [h2, h4] at hsumB
      rw [hteam, ht]
      constructor
      · show s.blueScore = teamTapSum (hset s.allUsers uid v) Team.blue
        omega
      · show s.redScore + 1 = teamTapSum (hset s.allUsers uid v) Team.red
        omega

theorem inv_incrementUserTaps (s : RedisState) (uid : String) (now : Int)
    (hag : viewsAgree s) (hsc : scoreInv s) :
    viewsAgree (incrementUserTaps s uid now).2 ∧
      scoreInv (incrementUserTaps s uid now).2 := by
  unfold incrementUserTaps
  cases hg : getUser s uid with
  | none => exact ⟨hag, hsc⟩
  | some u =>
      exact inv_tapWrite s uid u
        { u with tapCount := u.tapCount + 1, lastTapTime := now }
        (getUser_allUsers s uid u hag hg) rfl rfl hag hsc

/-- Adding a fresh record with tap count 0 preserves both invariants. -/
theorem inv_addUser_fresh (s : RedisState) (v : User)
    (husers : hget s.users v.id = none)
    (hall : hget s.allUsers v.id = none)
    (htap : v.tapCount = 0)
    (hag : viewsAgree s) (hsc : scoreInv s) :
    viewsAgree (addUser s v) ∧ scoreInv (addUser s v) := by
  refine ⟨viewsAgree_setBoth s v.id v hag, ?_⟩
  have hB := teamTapSum_hset_none s.allUsers v.id v Team.blue hall
  have hR := teamTapSum_hset_none s.allUsers v.id v Team.red hall
  have h3 : contrib Team.blue v = 0 := by
    unfold contrib
    rw [htap]
    simp
  have h4 : contrib Team.red v = 0 := by
    unfold contrib
    rw [htap]
    simp
  have hb := hsc.1
  have hr := hsc.2
  constructor
  · show s.blueScore = teamTapSum (hset s.allUsers v.id v) Team.blue
    omega
  · show s.redScore = teamTapSum (hset s.allUsers v.id v) Team.red
    omega

theorem inv_processTapEvent (s : RedisState) (e : TapEvent) (coin : Bool)
    (now : Int) (hag : viewsAgree s) (hsc : scoreInv s) :
    viewsAgree (processTapEvent s e coin now).2 ∧
      scoreInv (processTapEvent s e coin now).2 := by
  unfold processTapEvent
  cases hg : getUser s e.userId with
  | some u => exact inv_incrementUserTaps s e.userId now hag hsc
  | none =>
      have husers : hget s.users e.userId = none := by
        unfold getUser at hg
        cases hu : hget s.users e.userId with
        | some w => rw [hu] at hg; exact absurd hg (by simp)
        | none => rfl
      have hall : hget s.allUsers e.userId = none := by
        unfold getUser at hg
        rw [husers] at hg
        exact hg
      have h1 := inv_addUser_fresh s
        (userFromTapEvent e (eventTeam s e coin) now) husers hall rfl hag hsc
      exact inv_incrementUserTaps _ e.userId now h1.1 h1.2

/-- The states reachable from the reset state by sequential, in-order
consumption of tap events through the event-log consumer. -/
inductive ReachableByTaps : RedisState → Prop
  | reset : ReachableByTaps resetState
  | tap (s : RedisState) (e : TapEvent) (coin : Bool) (now : Int) :
      ReachableByTaps s → ReachableByTaps (processTapEvent s e coin now).2

theorem reach_inv (s : RedisState) (h : ReachableByTaps s) :
    viewsAgree s ∧ scoreInv s := by
  induction h with
  | reset =>
      constructor
      · intro k u hk
        simp [resetState, hget] at hk
      · exact ⟨rfl, rfl⟩
  | tap s e coin now _ ih => exact inv_processTapEvent s e coin now ih.1 ih.2

/-- C1: in every state reachable from the reset state by sequential,
in-order consumption of tap events, each team score counter equals the sum
of tapCount over the all-time records assigned to that team, because the
consumer (incrementUserTaps) bumps the tapped record and the matching team
counter together exactly once per consumed event. -/
theorem taps_preserve_team_score_invariant (s : RedisState)
    (h : ReachableByTaps s) :
    s.blueScore = teamTapSum s.allUsers Team.blue ∧
      s.redScore = teamTapSum s.allUsers Team.red :=
  (reach_inv s h).2

/-- Concrete tap event for the C1 witness. -/
def c1TapEvent : TapEvent :=
  { id := ("e1"), userId := ("p1"), username := ("alice"),
    team := some Team.blue, timestamp := 0, sessionId := ("sess1") }

/-- Concrete reachable state for the C1 witness: reset, then one consumed
tap event. -/
def c1State : RedisState := (processTapEvent resetState c1TapEvent true 0).2

theorem taps_preserve_team_score_invariant_witness :
    ReachableByTaps c1State ∧
      (c1State.blueScore = teamTapSum c1State.allUsers Team.blue ∧
        c1State.redScore = teamTapSum c1State.allUsers Team.red) :=
  ⟨ReachableByTaps.tap resetState c1TapEvent true 0 ReachableByTaps.reset,
   taps_preserve_team_score_invariant c1State
     (ReachableByTaps.tap resetState c1TapEvent true 0 ReachableByTaps.reset)⟩

/-- C4: the balancer counts active players per team; unequal counts pick
the smaller team deterministically whatever the random draw; equal counts
are decided by the random draw, and both outcomes occur. -/
theorem balanceTeamAssignment_minority_or_random (s : RedisState) :
    (blueCountOf s ≠ redCountOf s →
      ∀ coin : Bool, balanceTeamAssignment s coin =
        (if blueCountOf s < redCountOf s then Team.blue else Team.red)) ∧
    (blueCountOf s = redCountOf s →
      balanceTeamAssignment s true = Team.blue ∧
        balanceTeamAssignment s false = Team.red) := by
  constructor
  · intro hne coin
    simp [balanceTeamAssignment, hne]
  · intro heq
    simp [balanceTeamAssignment, heq]

/-- Active blue player used by the C4 witness state. -/
def c4User : User :=
  { id := ("p1"), username := ("alice"), team := Team.blue,
    sessionId := ("s1"), tapCount := 0, lastTapTime := 0 }

/-- Witness state with one active blue player and no red player. -/
def c4State : RedisState :=
  { users := [(("p1"), c4User)], allUsers := [(("p1"), c4User)],
    blueScore := 0, redScore := 0, totalTaps := 0 }

theorem balanceTeamAssignment_minority_or_random_witness :
    (blueCountOf c4State ≠ redCountOf c4State ∧
      balanceTeamAssignment c4State true = Team.red) ∧
    (blueCountOf resetState = redCountOf resetState ∧
      balanceTeamAssignment resetState true = Team.blue ∧
        balanceTeamAssignment resetState false = Team.red) := by
  constructor
  · refine ⟨by decide, ?_⟩
    exact ((balanceTeamAssignment_minority_or_random c4State).1 (by decide)
      true).trans (by decide)
  · exact ⟨by decide,
      (balanceTeamAssignment_minority_or_random resetState).2 (by decide)⟩

/-- C5: a tap increment for a player id stored in neither the active nor
the all-time view returns an absent result and leaves the state unchanged:
no record is created and no counter moves. -/
theorem incrementUserTaps_unknown_noop (s : RedisState) (userId : String)
    (now : Int) (hactive : hget s.users userId = none)
    (hall : hget s.allUsers userId = none) :
    incrementUserTaps s userId now = (none, s) := by
  simp [incrementUserTaps, getUser, hactive, hall]

theorem incrementUserTaps_unknown_noop_witness :
    hget resetState.users ("p9") = none ∧
      hget resetState.allUsers ("p9") = none ∧
      incrementUserTaps resetState ("p9") 5 = (none, resetState) :=
  ⟨rfl, rfl, incrementUserTaps_unknown_noop resetState ("p9") 5 rfl rfl⟩

/-! Small projection lemmas for the C2 characterization. -/

theorem teamScore_bump_self (s : RedisState) (t : Team) :
    teamScore (bumpTeamScore s t) t = teamScore s t + 1 := by
  cases t <;> rfl

theorem teamScore_bump_other (s : RedisState) (t : Team) :
    teamScore (bumpTeamScore s t) t.other = teamScore s t.other := by
  cases t <;> rfl

theorem totalTaps_bump (s : RedisState) (t : Team) :
    (bumpTeamScore s t).totalTaps = s.totalTaps + 1 := by
  cases t <;> rfl

theorem teamScore_setBoth (s : RedisState) (k : String) (v : User) (t : Team) :
    teamScore (setBoth s k v) t = teamScore s t := by
  cases t <;> rfl

theorem getUser_setBoth_self (s : RedisState) (k : String) (v : User) :
    getUser (setBoth s k v) k = some v := by
  unfold getUser
  rw [setBoth_users, hget_hset_self]

theorem incrementUserTaps_found (s : RedisState) (uid : String) (now : Int)
    (u : User) (hg : getUser s uid = some u) :
    incrementUserTaps s uid now =
      (some (tappedUser u now),
        bumpTeamScore (setBoth s uid (tappedUser u now)) u.team) := by
  unfold incrementUserTaps
  rw [hg]
  rfl

/-- C2: the consumer looks the tapped player up by the event player id;
a stored player gets tapCount bumped and lastTapTime stamped, with that
player team counter and the total-tap counter each incremented once; an
absent player is first created (team from the event when present,
otherwise the balancer) and then receives the same tap application,
ending at tapCount 1. -/
theorem processTapEvent_spec (s : RedisState) (e : TapEvent) (coin : Bool)
    (now : Int) :
    (∀ u, getUser s e.userId = some u →
      (processTapEvent s e coin now).1 = some (tappedUser u now) ∧
      getUser (processTapEvent s e coin now).2 e.userId = some (tappedUser u now) ∧
      teamScore (processTapEvent s e coin now).2 u.team = teamScore s u.team + 1 ∧
      teamScore (processTapEvent s e coin now).2 u.team.other =
        teamScore s u.team.other ∧
      (processTapEvent s e coin now).2.totalTaps = s.totalTaps + 1) ∧
    (getUser s e.userId = none →
      (processTapEvent s e coin now).1 =
        some (tappedUser (userFromTapEvent e (eventTeam s e coin) now) now) ∧
      getUser (processTapEvent s e coin now).2 e.userId =
        some (tappedUser (userFromTapEvent e (eventTeam s e coin) now) now) ∧
      (tappedUser (userFromTapEvent e (eventTeam s e coin) now) now).tapCount = 1 ∧
      teamScore (processTapEvent s e coin now).2 (eventTeam s e coin) =
        teamScore s (eventTeam s e coin) + 1 ∧
      teamScore (processTapEvent s e coin now).2 (eventTeam s e coin).other =
        teamScore s (eventTeam s e coin).other ∧
      (processTapEvent s e coin now).2.totalTaps = s.totalTaps + 1) := by
  constructor
  · intro u hg
    have hstep : processTapEvent s e coin now =
        (some (tappedUser u now),
          bumpTeamScore (setBoth s e.userId (tappedUser u now)) u.team) := by
      unfold processTapEvent
      rw [hg]
      exact incrementUserTaps_found s e.userId now u hg
    rw [hstep]
    refine ⟨rfl, ?_, ?_, ?_, ?_⟩
    · show getUser (bumpTeamScore (setBoth s e.userId (tappedUser u now)) u.team)
        e.userId = some (tappedUser u now)
      unfold getUser
      rw [bumpTeamScore_users, setBoth_users, hget_hset_self]
    · show teamScore (bumpTeamScore (setBoth s e.userId (tappedUser u now)) u.team)
        u.team = teamScore s u.team + 1
      rw [teamScore_bump_self, teamScore_setBoth]
    · rw [teamScore_bump_other, teamScore_setBoth]
    · rw [totalTaps_bump]
      rfl
  · intro hg
    have hcreated : getUser (addUser s (userFromTapEvent e (eventTeam s e coin) now))
        e.userId = some (userFromTapEvent e (eventTeam s e coin) now) := by
      unfold addUser
      exact getUser_setBoth_self s e.userId (userFromTapEvent e (eventTeam s e coin) now)
    have hstep : processTapEvent s e coin now =
        (some (tappedUser (userFromTapEvent e (eventTeam s e coin) now) now),
          bumpTeamScore
            (setBoth (addUser s (userFromTapEvent e (eventTeam s e coin) now))
              e.userId (tappedUser (userFromTapEvent e (eventTeam s e coin) now) now))
            (eventTeam s e coin)) := by
      unfold processTapEvent
      rw [hg]
      exact incrementUserTaps_found _ e.userId now _ hcreated
    rw [hstep]
    refine ⟨rfl, ?_, rfl, ?_, ?_, ?_⟩
    · unfold getUser
      rw [bumpTeamScore_users, setBoth_users, hget_hset_self]
    · rw [teamScore_bump_self, teamScore_setBoth]
      show teamScore (setBoth s (userFromTapEvent e (eventTeam s e coin) now).id
        (userFromTapEvent e (eventTeam s e coin) now)) (eventTeam s e coin) + 1 =
        teamScore s (eventTeam s e coin) + 1
      rw [teamScore_setBoth]
    · rw [teamScore_bump_other, teamScore_setBoth]
      show teamScore (setBoth s (userFromTapEvent e (eventTeam s e coin) now).id
        (userFromTapEvent e (eventTeam s e coin) now)) (eventTeam s e coin).other =
        teamScore s (eventTeam s e coin).other
      rw [teamScore_setBoth]
    · rw [totalTaps_bump]
      rfl

theorem processTapEvent_spec_witness :
    getUser resetState ("p1") = none ∧
      (processTapEvent resetState c1TapEvent true 0).1 =
        some (tappedUser (userFromTapEvent c1TapEvent
          (eventTeam resetState c1TapEvent true) 0) 0) ∧
      teamScore (processTapEvent resetState c1TapEvent true 0).2
          (eventTeam resetState c1TapEvent true) =
        teamScore resetState (eventTeam resetState c1TapEvent true) + 1 := by
  have h := (processTapEvent_spec resetState c1TapEvent true 0).2 rfl
  exact ⟨rfl, h.1, h.2.2.2.1⟩

/-! Lemmas for reconnect stickiness (C3). -/

theorem handleUserJoin_stored (s : RedisState) (c : String) (d : JoinData)
    (coin : Bool) (now : Int) :
    getUser (handleUserJoin s c d coin now).1 (joinEffectiveId c d) =
      some (joinUser s c d coin now) := by
  show getUser (addUser _ (joinUser s c d coin now)) (joinEffectiveId c d) = _
  unfold addUser
  have hid : (joinUser s c d coin now).id = joinEffectiveId c d := rfl
  rw [hid]
  exact getUser_setBoth_self _ _ _

theorem joinFinalTeam_existing (s : RedisState) (d : JoinData) (coin : Bool)
    (uid : String) (u : User) (hid : strTruthy d.id = some uid)
    (hg : getUser s uid = some u) :
    joinFinalTeam s d coin = u.team := by
  simp only [joinFinalTeam, joinExistingUser, hid, hg]

/-- The stored team after any join whose client id resolves to a stored
record is the stored team. -/
theorem join_team_of_existing (s : RedisState) (c : String) (d : JoinData)
    (coin : Bool) (now : Int) (uid : String) (u : User)
    (hid : strTruthy d.id = some uid) (hg : getUser s uid = some u) :
    ((getUser (handleUserJoin s c d coin now).1 uid).map User.team) =
      some u.team := by
  have heff : joinEffectiveId c d = uid := by
    unfold joinEffectiveId
    rw [hid]
    rfl
  rw [← heff]
  rw [handleUserJoin_stored]
  have hteam : (joinUser s c d coin now).team = u.team :=
    joinFinalTeam_existing s d coin uid u hid hg
  simp [hteam]

theorem decrementActiveSessions_getUser (s : RedisState) (uid : String)
    (u : User) (hg : getUser s uid = some u) :
    ∃ w, getUser (decrementActiveSessions s uid).1 uid = some w ∧
      w.team = u.team := by
  cases h2 : jsTruthyNat u.activeSessions with
  | none =>
      refine ⟨u, ?_, rfl⟩
      simp only [decrementActiveSessions, hg, h2]
  | some n =>
      refine ⟨{ u with activeSessions := some (n - 1) }, ?_, rfl⟩
      simp only [decrementActiveSessions, hg, h2]
      exact getUser_setBoth_self _ _ _

theorem updateUserDisconnectTime_allUsers (s : RedisState) (uid : String)
    (dt : Int) (w : User) (hg : getUser s uid = some w) :
    hget (updateUserDisconnectTime s uid dt).allUsers uid =
      some { w with lastDisconnectTime := some dt } := by
  unfold updateUserDisconnectTime
  rw [hg]
  show hget (setBoth s uid { w with lastDisconnectTime := some dt }).allUsers uid = _
  rw [setBoth_allUsers]
  exact hget_hset_self _ _ _

theorem getUser_removeUser (s : RedisState) (uid : String) :
    getUser (removeUser s uid) uid = hget s.allUsers uid := by
  unfold getUser removeUser
  rw [hget_hdel_self]

theorem handleUserLeave_state (s : RedisState) (uid : String) (dt : Int)
    (u : User) (hg : getUser s uid = some u) :
    (handleUserLeave s uid dt).1 =
      removeUser
        (updateUserDisconnectTime (decrementActiveSessions s uid).1 uid dt)
        uid := by
  unfold handleUserLeave
  rw [hg]

/-- After a disconnect of a stored player the all-time view still returns
the record, with the team unchanged. -/
theorem handleUserLeave_keeps_team (s : RedisState) (uid : String) (dt : Int)
    (u : User) (hg : getUser s uid = some u) :
    ∃ w, getUser (handleUserLeave s uid dt).1 uid = some w ∧
      w.team = u.team := by
  obtain ⟨w, hw, hwteam⟩ := decrementActiveSessions_getUser s uid u hg
  refine ⟨{ w with lastDisconnectTime := some dt }, ?_, hwteam⟩
  rw [handleUserLeave_state s uid dt u hg, getUser_removeUser]
  exact updateUserDisconnectTime_allUsers _ uid dt w hw

/-- C3: a join whose player id resolves to a previously stored record is
always bound to the stored team, whatever team the client declares and
whatever the balancer would pick, and the same holds for a rejoin after a
disconnect that removed the player from the active view. -/
theorem rejoin_assigns_stored_team (s : RedisState) (clientId : String)
    (d : JoinData) (coin : Bool) (now : Int) (uid : String) (u : User)
    (hid : strTruthy d.id = some uid) (hg : getUser s uid = some u) :
    ((getUser (handleUserJoin s clientId d coin now).1 uid).map User.team) =
      some u.team ∧
    ∀ (dt : Int) (coin' : Bool) (now' : Int),
      ((getUser
        (handleUserJoin (handleUserLeave s uid dt).1 clientId d coin' now').1
        uid).map User.team) = some u.team := by
  constructor
  · exact join_team_of_existing s clientId d coin now uid u hid hg
  · intro dt coin' now'
    obtain ⟨w, hw, hwteam⟩ := handleUserLeave_keeps_team s uid dt u hg
    rw [← hwteam]
    exact join_team_of_existing _ clientId d coin' now' uid w hid hw

/-- Stored red-team player used by the C3 witness: present only in the
all-time view, as after a disconnect. -/
def c3User : User :=
  { id := ("p1"), username := ("bob"), team := Team.red,
    sessionId := ("s3"), tapCount := 4, lastTapTime := 9 }

/-- Witness state: the player is absent from the active view. -/
def c3State : RedisState :=
  { users := [], allUsers := [(("p1"), c3User)],
    blueScore := 0, redScore := 4, totalTaps := 4 }

/-- Join message that declares the opposite team. -/
def c3Join : JoinData :=
  { id := some ("p1"), username := some ("bob"), team := some Team.blue,
    sessionId := some ("s3b") }

theorem rejoin_assigns_stored_team_witness :
    strTruthy c3Join.id = some ("p1") ∧
      getUser c3State ("p1") = some c3User ∧
      ((getUser (handleUserJoin c3State ("c1") c3Join true 7).1 ("p1")).map
        User.team) = some Team.red ∧
      ((getUser
        (handleUserJoin (handleUserLeave c3State ("p1") 11).1 ("c1") c3Join
          false 12).1 ("p1")).map User.team) = some Team.red := by
  have h := rejoin_assigns_stored_team c3State ("c1") c3Join true 7 ("p1")
    c3User rfl rfl
  exact ⟨rfl, rfl, h.1, h.2 11 false 12⟩

/-! Lemmas for the rage-quit characterization (C6). -/

/-- The per-team score read from a game state snapshot. -/
def teamScoreGS (gs : GameState) (t : Team) : Nat :=
  match t with
  | Team.blue => gs.blueScore
  | Team.red => gs.redScore

theorem ite_chain_rage (b m : Bool) :
    ((if b then SessionEventType.rage_quit
      else if m then SessionEventType.marathon
      else SessionEventType.session_end) = SessionEventType.rage_quit) ↔
      b = true := by
  cases b <;> cases m <;> simp

theorem sessionEndEvent_rage_iff (u : User) (gs : GameState) (dt : Int) :
    (sessionEndEvent u gs dt = SessionEventType.rage_quit ↔
      (dt - u.lastTapTime < 5000 ∧
        teamScoreGS gs u.team < teamScoreGS gs u.team.other ∧
        1 ≤ u.tapCount)) := by
  simp only [sessionEndEvent]
  rw [ite_chain_rage]
  cases ht : u.team with
  | blue =>
      simp only [ht, teamScoreGS, Team.other, Bool.and_eq_true, decide_eq_true_eq]
      constructor
      · rintro ⟨⟨h1, h2⟩, h3⟩
        exact ⟨h2, h1, h3⟩
      · rintro ⟨h2, h1, h3⟩
        exact ⟨⟨h1, h2⟩, h3⟩
  | red =>
      simp only [ht, teamScoreGS, Team.other, Bool.and_eq_true, decide_eq_true_eq]
      constructor
      · rintro ⟨⟨h1, h2⟩, h3⟩
        exact ⟨h2, h1, h3⟩
      · rintro ⟨h2, h1, h3⟩
        exact ⟨⟨h1, h2⟩, h3⟩

theorem handleUserLeave_event (s : RedisState) (uid : String) (dt : Int)
    (u : User) (hg : getUser s uid = some u) :
    (handleUserLeave s uid dt).2 =
      some (sessionEndEvent u
        (getGameState
          (updateUserDisconnectTime (decrementActiveSessions s uid).1 uid dt)
          dt)
        dt) := by
  unfold handleUserLeave
  rw [hg]

theorem teamScore_decrementActiveSessions (s : RedisState) (uid : String)
    (t : Team) :
    teamScore (decrementActiveSessions s uid).1 t = teamScore s t := by
  cases hg : getUser s uid with
  | none => simp only [decrementActiveSessions, hg]
  | some u =>
      cases h2 : jsTruthyNat u.activeSessions with
      | none => simp only [decrementActiveSessions, hg, h2]
      | some n =>
          simp only [decrementActiveSessions, hg, h2]
          exact teamScore_setBoth _ _ _ _

theorem teamScore_updateUserDisconnectTime (s : RedisState) (uid : String)
    (dt : Int) (t : Team) :
    teamScore (updateUserDisconnectTime s uid dt) t = teamScore s t := by
  cases hg : getUser s uid with
  | none => simp only [updateUserDisconnectTime, hg]
  | some u =>
      simp only [updateUserDisconnectTime, hg]
      exact teamScore_setBoth _ _ _ _

theorem teamScoreGS_getGameState (s : RedisState) (now : Int) (t : Team) :
    teamScoreGS (getGameState s now) t = teamScore s t := by
  cases t <;> rfl

/-- C6: for every disconnect of a stored player, the emitted session-end
event is rage_quit exactly when the disconnect is less than 5000 ms after
the last tap of the player, the team of the player is strictly behind the
opposing team at disconnect time, and the player has tapped at least
once. -/
theorem rage_quit_iff (s : RedisState) (uid : String) (dt : Int) (u : User)
    (hg : getUser s uid = some u) :
    ((handleUserLeave s uid dt).2 = some SessionEventType.rage_quit ↔
      (dt - u.lastTapTime < 5000 ∧
        teamScore s u.team < teamScore s u.team.other ∧
        1 ≤ u.tapCount)) := by
  rw [handleUserLeave_event s uid dt u hg, Option.some.injEq,
    sessionEndEvent_rage_iff]
  rw [teamScoreGS_getGameState, teamScoreGS_getGameState,
    teamScore_updateUserDisconnectTime, teamScore_updateUserDisconnectTime,
    teamScore_decrementActiveSessions, teamScore_decrementActiveSessions]

/-- Blue player used by the C6 witness: last tap at 1000 ms, five taps. -/
def c6User : User :=
  { id := ("p1"), username := ("carol"), team := Team.blue,
    sessionId := ("s6"), tapCount := 5, lastTapTime := 1000 }

/-- Witness state: team blue trails team red by 50. -/
def c6State : RedisState :=
  { users := [(("p1"), c6User)], allUsers := [(("p1"), c6User)],
    blueScore := 0, redScore := 50, totalTaps := 50 }

theorem rage_quit_iff_witness :
    getUser c6State ("p1") = some c6User ∧
      (handleUserLeave c6State ("p1") 3000).2 =
        some SessionEventType.rage_quit :=
  ⟨rfl, (rage_quit_iff c6State ("p1") 3000 c6User rfl).mpr (by decide)⟩

/-- C7: for the newest-first history [t, t-200, t-400, t-600, t-800]
evaluated at current time t, all five entries lie in the trailing 1000 ms
window, so burstCount is 5, and the velocity over the 3000 ms window is
strictly positive (it computes to 6.3 taps per second after rounding). -/
theorem tapMetrics_burst_example (t : ℤ) :
    (calculateTapMetrics [t, t - 200, t - 400, t - 600, t - 800] t).burstCount
        = 5 ∧
      (calculateTapMetrics [t, t - 200, t - 400, t - 600, t - 800]
        t).tapVelocity > 0 := by
  have c0 : t ≥ t - 1000 := by omega
  have c1 : t - 200 ≥ t - 1000 := by omega
  have c2 : t - 400 ≥ t - 1000 := by omega
  have c3 : t - 600 ≥ t - 1000 := by omega
  have c4 : t - 800 ≥ t - 1000 := by omega
  have d0 : t ≥ t - 3000 := by omega
  have d1 : t - 200 ≥ t - 3000 := by omega
  have d2 : t - 400 ≥ t - 3000 := by omega
  have d3 : t - 600 ≥ t - 3000 := by omega
  have d4 : t - 800 ≥ t - 3000 := by omega
  have e1 : t - (t - 800) = (800 : ℤ) := by ring
  simp only [calculateTapMetrics, List.filter_cons, List.filter_nil,
    c0, c1, c2, c3, c4, d0, d1, d2, d3, d4, decide_True, if_true,
    List.length_cons, List.length_nil, List.getLast?, e1, jsRound]
  norm_num [jsRound]

/-- The stored multi-tab counter of an optional record; an absent record or
an absent field both read as 0. -/
def activeCount : Option User → Nat
  | some u => u.activeSessions.getD 0
  | none => 0

/-- C8: replaying the identical join message on the same connection leaves
the stored active-session count of the player where the first join left
it: the record the final addUser write of every join persists carries no
activeSessions field, so the stored count after the replay equals the
stored count after the first join. -/
theorem join_replay_active_sessions (s : RedisState) (c : String)
    (d : JoinData) (coin coin' : Bool) (now now' : Int) :
    activeCount (getUser
        (handleUserJoin (handleUserJoin s c d coin now).1 c d coin' now').1
        (joinEffectiveId c d)) =
      activeCount (getUser (handleUserJoin s c d coin now).1
        (joinEffectiveId c d)) := by
  rw [handleUserJoin_stored, handleUserJoin_stored]
  rfl

/-! Lemmas for the visit-streak claim (C9). -/

/-- The stored streak of an optional record, absent meaning 0. -/
def streakOf : Option User → Nat
  | some u => u.streakLength.getD 0
  | none => 0

theorem trackVisit_stored (s : RedisState) (uid : String) (visitTime : Int)
    (u : User) (hg : getUser s uid = some u) :
    getUser (trackVisit s uid visitTime).1 uid =
      some { u with
        visitCount := some (u.visitCount.getD 0 + 1)
        lastVisitTime := some visitTime
        streakLength := some (visitStreak u visitTime) } := by
  simp only [trackVisit, hg]
  exact getUser_setBoth_self _ _ _

/-- C9: for a stored player, the visit recorded by trackVisit updates the
consecutive-day streak by the floor day difference from the prior visit
time: difference 0 keeps the streak (for the reachable records, whose
stored streak is at least 1), difference exactly 1 increments it by one,
any larger difference resets it to 1; a player with no prior visit time
gets streak 1. -/
theorem trackVisit_streak (s : RedisState) (uid : String) (visitTime : Int)
    (u : User) (hg : getUser s uid = some u) :
    (jsTruthyInt u.lastVisitTime = none →
      streakOf (getUser (trackVisit s uid visitTime).1 uid) = 1) ∧
    (∀ lv, jsTruthyInt u.lastVisitTime = some lv →
      1 ≤ u.streakLength.getD 0 →
      (Int.fdiv (visitTime - lv) 86400000 = 0 →
        streakOf (getUser (trackVisit s uid visitTime).1 uid) =
          u.streakLength.getD 0) ∧
      (Int.fdiv (visitTime - lv) 86400000 = 1 →
        streakOf (getUser (trackVisit s uid visitTime).1 uid) =
          u.streakLength.getD 0 + 1) ∧
      (2 ≤ Int.fdiv (visitTime - lv) 86400000 →
        streakOf (getUser (trackVisit s uid visitTime).1 uid) = 1)) := by
  rw [trackVisit_stored s uid visitTime u hg]
  have hs : streakOf (some { u with
      visitCount := some (u.visitCount.getD 0 + 1)
      lastVisitTime := some visitTime
      streakLength := some (visitStreak u visitTime) }) =
        visitStreak u visitTime := rfl
  rw [hs]
  constructor
  · intro hn
    simp only [visitStreak, hn]
  · intro lv hlv hpos
    refine ⟨?_, ?_, ?_⟩
    · intro hd
      simp only [visitStreak, hlv, hd]
      have : ¬ u.streakLength.getD 0 = 0 := by omega
      simp [this]
    · intro hd
      simp [visitStreak, hlv, hd]
    · intro hd
      have h0 : ¬ Int.fdiv (visitTime - lv) 86400000 = 0 := by omega
      have h1 : ¬ Int.fdiv (visitTime - lv) 86400000 = 1 := by omega
      simp only [visitStreak, hlv, h0, h1, if_false]

/-- Stored player for the C9 witness: prior visit at day 1, streak 3. -/
def c9User : User :=
  { id := ("p1"), username := ("dora"), team := Team.blue,
    sessionId := ("s9"), tapCount := 2, lastTapTime := 5,
    lastVisitTime := some 86400000, visitCount := some 3,
    streakLength := some 3 }

/-- Witness state holding the C9 player. -/
def c9State : RedisState :=
  { users := [(("p1"), c9User)], allUsers := [(("p1"), c9User)],
    blueScore := 2, redScore := 0, totalTaps := 2 }

theorem trackVisit_streak_witness :
    getUser c9State ("p1") = some c9User ∧
      jsTruthyInt c9User.lastVisitTime = some 86400000 ∧
      1 ≤ c9User.streakLength.getD 0 ∧
      Int.fdiv ((172800000 : Int) - 86400000) 86400000 = 1 ∧
      streakOf (getUser (trackVisit c9State ("p1") 172800000).1 ("p1")) = 4 := by
  refine ⟨rfl, rfl, by decide, by decide, ?_⟩
  have h := (trackVisit_streak c9State ("p1") 172800000 c9User rfl).2
    86400000 rfl (by decide)
  exact (h.2.1 (by decide)).trans (by decide)

/-! Bounds lemma for the consistency score (C10). -/

theorem jsRoundR_clamp_bounds (z : ℝ) :
    0 ≤ jsRoundR (max 0 (min 100 z)) ∧ jsRoundR (max 0 (min 100 z)) ≤ 100 := by
  have h1 : (0 : ℝ) ≤ max 0 (min 100 z) := le_max_left _ _
  have h2 : max 0 (min 100 z) ≤ 100 :=
    max_le (by norm_num) (min_le_left _ _)
  unfold jsRoundR
  constructor
  · rw [Int.le_floor]
    push_cast
    linarith
  · have hlt : ⌊max 0 (min 100 z) + 1 / 2⌋ < 101 := by
      rw [Int.floor_lt]
      push_cast
      linarith
    omega

/-- C10: with fewer than five history entries the consistency score is the
fixed neutral default 50, not an absent value; with five or more entries
it is an integer clamped to the range 0 to 100. -/
theorem consistencyScore_default_and_bounds (ts : List ℤ) :
    (ts.length < 5 → calculateConsistencyScore ts = 50) ∧
    (5 ≤ ts.length →
      0 ≤ calculateConsistencyScore ts ∧
        calculateConsistencyScore ts ≤ 100) := by
  constructor
  · intro h
    unfold calculateConsistencyScore
    rw [if_pos h]
  · intro h
    unfold calculateConsistencyScore
    rw [if_neg (by omega)]
    by_cases h0 : (tapIntervals ts).length = 0
    · rw [if_pos h0]
      norm_num
    · rw [if_neg h0]
      exact jsRoundR_clamp_bounds _

theorem consistencyScore_default_and_bounds_witness :
    ([(5 : ℤ), 4, 3].length < 5 ∧
      calculateConsistencyScore [5, 4, 3] = 50) ∧
    (5 ≤ [(800 : ℤ), 600, 400, 200, 0].length ∧
      0 ≤ calculateConsistencyScore [800, 600, 400, 200, 0] ∧
        calculateConsistencyScore [800, 600, 400, 200, 0] ≤ 100) := by
  constructor
  · exact ⟨by decide,
      (consistencyScore_default_and_bounds [5, 4, 3]).1 (by decide)⟩
  · exact ⟨by decide,
      (consistencyScore_default_and_bounds [800, 600, 400, 200, 0]).2
        (by decide)⟩

end StreamWars
